import Mathlib

/-!
Shallow embedding of the gonull package (src/gonull.go).

The package provides a generic tri-state container `Nullable[T]` with
fields `Val : T`, `Valid : bool`, `Present : bool`, together with
JSON codec hooks (`UnmarshalJSON`, `MarshalJSON`), database hooks
(`Scan`, `Value`), an accessor `OrElse`, and a reflective coercion
engine (`convertToType`, `convertToDriverValue`).

Modelling decisions:
* Go dynamic values (`any`) delivered by the database driver are
  modelled by the inductive `GoValue`, one constructor per runtime
  type that the coercion engine distinguishes (the builtin numeric
  types, `bool`, `string`, `[]byte`, and the nil interface).
* Go machine integers are modelled as `Int` with explicit reduction
  modulo `2^w` where Go's numeric conversions wrap
  (`wrapSigned` / `wrapUnsigned`).  Go floating-point values are
  modelled as rationals; `float64 -> float32` narrowing keeps the
  rational unchanged (no claim depends on 32-bit rounding), and
  float-to-integer conversion truncates toward zero (`ratTrunc`),
  as Go does for in-range values.
* The standard library's `strconv.ParseFloat` is external to the
  repository; `convertToType` takes it as an explicit oracle
  parameter `pf : Nat -> String -> Option Rat` (bit width, text).
  `pfModel` below is one concrete executable instantiation used by
  witnesses, covering plain decimal literals.
* Element types `T` with custom `sql.Scanner` / JSON codecs are
  handled by definitions parameterised over the delegated functions
  (`ScanWithScanner`, `UnmarshalJSON`, `MarshalJSON`), mirroring
  interface dispatch in the source.
-/

namespace Gonull

/-- The runtime types (reflect kinds) distinguished by the coercion
engine.  `bytes` stands for the slice type `[]uint8` (reflect kind
Slice with element kind Uint8).  `uintptr`, complex kinds and other
slice/struct/pointer types are never produced by the modelled values
and are omitted. -/
inductive GoType where
  | int | int8 | int16 | int32 | int64
  | uint | uint8 | uint16 | uint32 | uint64
  | float32 | float64
  | bool
  | string
  | bytes
deriving DecidableEq, Repr

/-- A loosely-typed Go value (`any`/`interface{}`), as delivered to
`Scan` or `convertToType`.  `vNull` is the nil interface.  Integer
constructors carry the mathematical value of the Go integer; float
constructors carry the value as a rational. -/
inductive GoValue where
  | vNull
  | vInt (n : Int) | vInt8 (n : Int) | vInt16 (n : Int) | vInt32 (n : Int) | vInt64 (n : Int)
  | vUint (n : Int) | vUint8 (n : Int) | vUint16 (n : Int) | vUint32 (n : Int) | vUint64 (n : Int)
  | vFloat32 (q : Rat) | vFloat64 (q : Rat)
  | vBool (b : Bool)
  | vString (s : String)
  | vBytes (s : String)
deriving DecidableEq, Repr

/-- Models `reflect.TypeOf(value)`: the runtime type of a value, `none` for
the nil interface (the source checks `value == nil` before ever
taking the type, so `none` never reaches kind-dependent code). -/
def GoValue.kind? : GoValue → Option GoType
  | .vNull => none
  | .vInt _ => some .int
  | .vInt8 _ => some .int8
  | .vInt16 _ => some .int16
  | .vInt32 _ => some .int32
  | .vInt64 _ => some .int64
  | .vUint _ => some .uint
  | .vUint8 _ => some .uint8
  | .vUint16 _ => some .uint16
  | .vUint32 _ => some .uint32
  | .vUint64 _ => some .uint64
  | .vFloat32 _ => some .float32
  | .vFloat64 _ => some .float64
  | .vBool _ => some .bool
  | .vString _ => some .string
  | .vBytes _ => some .bytes

/-- Predicate `isNumeric` from convertToType: `kind >= reflect.Int && kind <= reflect.Float64`.
(The reflect ordering would also admit `Uintptr`, a kind no modelled
value carries.) -/
def GoType.isNumeric : GoType → Bool
  | .int | .int8 | .int16 | .int32 | .int64
  | .uint | .uint8 | .uint16 | .uint32 | .uint64
  | .float32 | .float64 => true
  | _ => false

/-- Models `reflect.Type.Bits()` for the numeric kinds (Go `int` and `uint`
are 64 bits wide on the 64-bit platforms the module targets). -/
def GoType.bits : GoType → Nat
  | .int | .int64 | .uint | .uint64 => 64
  | .int8 | .uint8 => 8
  | .int16 | .uint16 => 16
  | .int32 | .uint32 => 32
  | .float32 => 32
  | .float64 => 64
  | _ => 0

/-- The zero value of each modelled type (`zeroValue[T]()`). -/
def GoType.zero : GoType → GoValue
  | .int => .vInt 0
  | .int8 => .vInt8 0
  | .int16 => .vInt16 0
  | .int32 => .vInt32 0
  | .int64 => .vInt64 0
  | .uint => .vUint 0
  | .uint8 => .vUint8 0
  | .uint16 => .vUint16 0
  | .uint32 => .vUint32 0
  | .uint64 => .vUint64 0
  | .float32 => .vFloat32 0
  | .float64 => .vFloat64 0
  | .bool => .vBool false
  | .string => .vString ""
  | .bytes => .vBytes ""

/-- Reduction into a `w`-bit unsigned machine integer, as performed by
Go conversions to unsigned types. -/
def wrapUnsigned (w : Nat) (n : Int) : Int := n % (2 ^ w : Int)

/-- Reduction into a `w`-bit two's-complement signed machine integer,
as performed by Go conversions to signed types. -/
def wrapSigned (w : Nat) (n : Int) : Int :=
  let m := n % (2 ^ w : Int)
  if m < 2 ^ (w - 1) then m else m - 2 ^ w

/-- Truncation of a rational toward zero: Go's float-to-integer
conversion for in-range values. -/
def ratTrunc (q : Rat) : Int := q.num.tdiv (q.den : Int)

/-- The mathematical value of a numeric `GoValue` as an integer
(floats truncate toward zero).  Only applied under an `isNumeric`
guard; the remaining constructors are unreachable there. -/
def GoValue.intContent : GoValue → Int
  | .vInt n | .vInt8 n | .vInt16 n | .vInt32 n | .vInt64 n
  | .vUint n | .vUint8 n | .vUint16 n | .vUint32 n | .vUint64 n => n
  | .vFloat32 q | .vFloat64 q => ratTrunc q
  | _ => 0

/-- The mathematical value of a numeric `GoValue` as a rational. -/
def GoValue.ratContent : GoValue → Rat
  | .vInt n | .vInt8 n | .vInt16 n | .vInt32 n | .vInt64 n
  | .vUint n | .vUint8 n | .vUint16 n | .vUint32 n | .vUint64 n => (n : Rat)
  | .vFloat32 q | .vFloat64 q => q
  | _ => 0

/-- `reflect.ValueOf(value).Convert(targetType)` for the combinations
the source reaches: numeric-to-numeric conversion (wrapping at the
target width, truncating floats toward zero) and `[]byte`-to-`string`.
Other combinations are never reached under the guards in
`convertToType`. -/
def goConvert (target : GoType) (v : GoValue) : GoValue :=
  match target with
  | .int => .vInt (wrapSigned 64 v.intContent)
  | .int8 => .vInt8 (wrapSigned 8 v.intContent)
  | .int16 => .vInt16 (wrapSigned 16 v.intContent)
  | .int32 => .vInt32 (wrapSigned 32 v.intContent)
  | .int64 => .vInt64 (wrapSigned 64 v.intContent)
  | .uint => .vUint (wrapUnsigned 64 v.intContent)
  | .uint8 => .vUint8 (wrapUnsigned 8 v.intContent)
  | .uint16 => .vUint16 (wrapUnsigned 16 v.intContent)
  | .uint32 => .vUint32 (wrapUnsigned 32 v.intContent)
  | .uint64 => .vUint64 (wrapUnsigned 64 v.intContent)
  | .float32 => .vFloat32 v.ratContent
  | .float64 => .vFloat64 v.ratContent
  | .string => match v with
    | .vBytes s => .vString s
    | w => w
  | _ => v

/-- The error values produced by the package.  `unsupportedConversion`
is the shared sentinel `ErrUnsupportedConversion`; the others are the
distinct `fmt.Errorf` values of `convertToDriverValue`. -/
inductive GoErr where
  | unsupportedConversion
  | uintTooLargeForInt64 (u : Int)
  | uint64TooLargeForInt64 (u : Int)
  | unsupportedType
deriving DecidableEq, Repr

/-- Function `convertToType[T](value)`, with the target type `T` reified as a
`GoType` and `strconv.ParseFloat` passed as the oracle `pf` (bit
width, text).  On the error paths the source returns `T`'s zero value
together with the error; here the zero is reconstructed by the caller
(`Scan`) from `target.zero`, which is the same value. -/
def convertToType (pf : Nat → String → Option Rat) (target : GoType) (value : GoValue) :
    Except GoErr GoValue :=
  match value.kind? with
  | none => .ok target.zero
  | some valueKind =>
    if valueKind = target then
      .ok value
    else
      let isStringConvertible := target = .string && valueKind = .bytes
      let isNumericConvertible := valueKind.isNumeric && target.isNumeric
      if isStringConvertible || isNumericConvertible then
        .ok (goConvert target value)
      else if valueKind.isNumeric && target = .bool then
        let val := wrapSigned 64 value.intContent
        if val < 0 || val > 1 then .error .unsupportedConversion
        else .ok (.vBool (decide (val = 1)))
      else if (target = .float32 || target = .float64) && valueKind = .bytes then
        let val := match value with
          | .vBytes s => s
          | _ => ""
        if val = "" then .error .unsupportedConversion
        else
          match pf target.bits val with
          | none => .error .unsupportedConversion
          | some q => .ok (if target = .float32 then .vFloat32 q else .vFloat64 q)
      else .error .unsupportedConversion

/-- Values of `driver.Value`: nil, int64, float64, bool, []byte, string (the
time.Time case is unreachable from the modelled values). -/
inductive DriverValue where
  | dNull
  | dInt64 (n : Int)
  | dFloat64 (q : Rat)
  | dBool (b : Bool)
  | dBytes (s : String)
  | dString (s : String)
deriving DecidableEq, Repr

/-- The constant `math.MaxInt64`. -/
def maxInt64 : Int := 2 ^ 63 - 1

/-- Function `convertToDriverValue(v)` restricted to the modelled values: the
pointer, `driver.Valuer`, `time.Time` and non-byte-slice branches are
unreachable because no modelled value has those runtime types; the
nil interface falls to the default branch (reflect kind Invalid). -/
def convertToDriverValue : GoValue → Except GoErr DriverValue
  | .vNull => .error .unsupportedType
  | .vInt n | .vInt8 n | .vInt16 n | .vInt32 n | .vInt64 n => .ok (.dInt64 n)
  | .vUint n | .vUint8 n | .vUint16 n | .vUint32 n =>
    if n > maxInt64 then .error (.uintTooLargeForInt64 n) else .ok (.dInt64 n)
  | .vUint64 n =>
    if n > maxInt64 then .error (.uint64TooLargeForInt64 n) else .ok (.dInt64 n)
  | .vFloat32 q | .vFloat64 q => .ok (.dFloat64 q)
  | .vBool b => .ok (.dBool b)
  | .vBytes s => .ok (.dBytes s)
  | .vString s => .ok (.dString s)

/-- The container: `Val`, `Valid`, `Present`, exactly as in the
source. -/
structure Nullable (T : Type) where
  Val : T
  Valid : Bool
  Present : Bool
deriving DecidableEq, Repr

/-- Constructor `NewNullable(value)`. -/
def NewNullable {T : Type} (value : T) : Nullable T :=
  { Val := value, Valid := true, Present := true }

/-- Go default construction `var n Nullable[T]`: the zero struct,
with `T`'s zero value passed explicitly. -/
def defaultNullable {T : Type} (zero : T) : Nullable T :=
  { Val := zero, Valid := false, Present := false }

/-- Method `Scan` for an element type that does not implement `sql.Scanner`
(all the primitive types of `GoType`): sets `Present`, intercepts the
nil interface, otherwise runs the coercion engine; `n.Val` receives
whatever `convertToType` returned (the zero value on error) and
`n.Valid = (err == nil)`.  Returns the mutated receiver and the
returned error. -/
def Nullable.Scan (pf : Nat → String → Option Rat) (t : GoType)
    (n : Nullable GoValue) (value : GoValue) : Nullable GoValue × Option GoErr :=
  let n1 := { n with Present := true }
  match value with
  | .vNull => ({ n1 with Val := t.zero, Valid := false }, none)
  | v =>
    match convertToType pf t v with
    | .ok w => ({ n1 with Val := w, Valid := true }, none)
    | .error e => ({ n1 with Val := t.zero, Valid := false }, some e)

/-- Method `Scan` for an element type `T` whose pointer implements
`sql.Scanner`: after the `Present` and nil checks the call is
delegated to `(&n.Val).Scan(value)`, modelled as `scanT`, which
receives the current `Val` and returns the (possibly mutated) `Val`
and an error.  On error the source returns immediately: `Valid` is
left unchanged. -/
def Nullable.ScanWithScanner {T E : Type} (zero : T)
    (scanT : T → GoValue → T × Option E)
    (n : Nullable T) (value : GoValue) : Nullable T × Option E :=
  let n1 := { n with Present := true }
  match value with
  | .vNull => ({ n1 with Val := zero, Valid := false }, none)
  | v =>
    match scanT n1.Val v with
    | (val2, some e) => ({ n1 with Val := val2 }, some e)
    | (val2, none) => ({ n1 with Val := val2, Valid := true }, none)

/-- Method `Value()` for an element type that does not implement
`driver.Valuer` (the primitive `GoType` values): nil when not valid,
otherwise `convertToDriverValue(n.Val)`. -/
def Nullable.Value (n : Nullable GoValue) : Except GoErr DriverValue :=
  if !n.Valid then .ok .dNull else convertToDriverValue n.Val

/-- Method `UnmarshalJSON(data)` with `T`'s own decoder (`json.Unmarshal`
into a `T`) abstracted as `unmarshalT`: sets `Present`, handles the
literal `null`, otherwise delegates; on a delegated error the error
is returned with `Val` and `Valid` untouched. -/
def Nullable.UnmarshalJSON {T E : Type} (unmarshalT : String → Except E T)
    (n : Nullable T) (data : String) : Nullable T × Option E :=
  let n1 := { n with Present := true }
  if data = "null" then ({ n1 with Valid := false }, none)
  else
    match unmarshalT data with
    | .error e => (n1, some e)
    | .ok value => ({ n1 with Val := value, Valid := true }, none)

/-- Method `MarshalJSON()` with `T`'s own encoder (`json.Marshal`)
abstracted as `marshalT`. -/
def Nullable.MarshalJSON {T E : Type} (marshalT : T → Except E String)
    (n : Nullable T) : Except E String :=
  if !n.Valid then .ok "null" else marshalT n.Val

/-- Method `OrElse(defaultVal)`. -/
def Nullable.OrElse {T : Type} (n : Nullable T) (defaultVal : T) : T :=
  if n.Valid then n.Val else defaultVal

/-- Method `IsZero()`. -/
def Nullable.IsZero {T : Type} (n : Nullable T) : Bool :=
  !n.Present

/-- The data-model invariant: the state (false, true) for
(`Present`, `Valid`) never occurs, phrased positively. -/
def stateInv {T : Type} (n : Nullable T) : Prop :=
  n.Present = true ∨ n.Valid = false

/-- The integer content of the values whose runtime type is one of
the ten Go integer types, `none` for every other value. -/
def GoValue.intValue? : GoValue → Option Int
  | .vInt n | .vInt8 n | .vInt16 n | .vInt32 n | .vInt64 n
  | .vUint n | .vUint8 n | .vUint16 n | .vUint32 n | .vUint64 n => some n
  | _ => none

/-- The stored content lies within the range of the value's Go
type (trivially true for the non-integer constructors, whose content
is not a machine integer of a fixed width). -/
def GoValue.inRange : GoValue → Prop
  | .vInt n => -(2 ^ 63) ≤ n ∧ n < 2 ^ 63
  | .vInt8 n => -(2 ^ 7) ≤ n ∧ n < 2 ^ 7
  | .vInt16 n => -(2 ^ 15) ≤ n ∧ n < 2 ^ 15
  | .vInt32 n => -(2 ^ 31) ≤ n ∧ n < 2 ^ 31
  | .vInt64 n => -(2 ^ 63) ≤ n ∧ n < 2 ^ 63
  | .vUint n => 0 ≤ n ∧ n < 2 ^ 64
  | .vUint8 n => 0 ≤ n ∧ n < 2 ^ 8
  | .vUint16 n => 0 ≤ n ∧ n < 2 ^ 16
  | .vUint32 n => 0 ≤ n ∧ n < 2 ^ 32
  | .vUint64 n => 0 ≤ n ∧ n < 2 ^ 64
  | _ => True

/-- All-digit decimal text to its numeric value, `none` otherwise. -/
def decDigitsVal (cs : List Char) : Option Nat :=
  if cs ≠ [] ∧ cs.all (fun c => c.isDigit) then
    some (cs.foldl (fun a c => a * 10 + (c.toNat - 48)) 0)
  else none

/-- Split a character list at the first dot, if any. -/
def splitDot : List Char → List Char × Option (List Char)
  | [] => ([], none)
  | c :: rest =>
    if c = '.' then ([], some rest)
    else
      let p := splitDot rest
      (c :: p.1, p.2)

/-- A concrete executable instantiation of the `strconv.ParseFloat`
oracle, covering optionally-signed plain decimal literals (the exact
grammar of the host library parser is external to the repository;
witnesses only rely on this parser agreeing with it on the concrete
texts they use). -/
def pfModel (_bitWidth : Nat) (s : String) : Option Rat :=
  let cs := s.toList
  let body := match cs with
    | '-' :: rest => rest
    | rest => rest
  let sgn : Rat := match cs with
    | '-' :: _ => -1
    | _ => 1
  match splitDot body with
  | (ip, none) => (decDigitsVal ip).map (fun a => sgn * (a : Rat))
  | (ip, some fp) =>
    match decDigitsVal ip, decDigitsVal fp with
    | some a, some b => some (sgn * ((a : Rat) + (b : Rat) / ((10 : Rat) ^ fp.length)))
    | _, _ => none


/-- JSON encoder of a two-valued element type, used to instantiate the
round-trip theorem on a concrete codec. -/
def mB : Bool → Except Unit String := fun b => .ok (if b then "true" else "false")

/-- JSON decoder matching `mB`. -/
def uB : String → Except Unit Bool := fun s =>
  if s = "true" then .ok true else if s = "false" then .ok false else .error ()

/-- Unfolding of the nullable-bool fallback of `convertToType` for any
input of numeric runtime type: the input is converted to the Go type
`int` (64-bit, wrapping; floats truncate toward zero) and must land on
0 or 1. -/
theorem convertToType_bool_numeric (pf : Nat → String → Option Rat) (v : GoValue) (vk : GoType)
    (hk : v.kind? = some vk) (hn : vk.isNumeric = true) :
    convertToType pf .bool v =
      if wrapSigned 64 v.intContent < 0 || wrapSigned 64 v.intContent > 1 then
        .error .unsupportedConversion
      else .ok (.vBool (decide (wrapSigned 64 v.intContent = 1))) := by
  cases v <;> simp only [GoValue.kind?, Option.some.injEq, reduceCtorEq] at hk <;>
    subst hk <;>
    simp_all [convertToType, GoValue.kind?, GoType.isNumeric, GoValue.intContent]

/-- Unfolding of `Scan` on a non-nil input: the receiver is fully
determined by the result of the coercion engine. -/
theorem scan_of_convert (pf : Nat → String → Option Rat) (t : GoType)
    (n : Nullable GoValue) (v : GoValue) (hv : v ≠ .vNull) :
    Nullable.Scan pf t n v =
      match convertToType pf t v with
      | .ok w => ({ Val := w, Valid := true, Present := true }, none)
      | .error e => ({ Val := t.zero, Valid := false, Present := true }, some e) := by
  cases v <;> simp_all [Nullable.Scan]

/-- The integer content of an in-range integer-typed value lies in
the union of the Go integer ranges. -/
theorem intValue_range (v : GoValue) (k : Int) (hk : v.intValue? = some k)
    (hr : v.inRange) : -(2^63) ≤ k ∧ k < 2^64 := by
  cases v <;> simp_all [GoValue.intValue?, GoValue.inRange] <;> omega

/-- On integer-typed values, `intContent` agrees with `intValue?`. -/
theorem intValue_content (v : GoValue) (k : Int) (hk : v.intValue? = some k) :
    v.intContent = k := by
  cases v <;> simp_all [GoValue.intValue?, GoValue.intContent]

/-- Integer-typed values have a numeric runtime kind. -/
theorem intValue_kind_numeric (v : GoValue) (k : Int) (hk : v.intValue? = some k) :
    ∃ vk, v.kind? = some vk ∧ vk.isNumeric = true := by
  cases v <;> simp_all [GoValue.intValue?, GoValue.kind?, GoType.isNumeric]

/-- C1, counterexample.  Decoding the null literal into a
`Nullable<int>` that previously held the value 5 leaves `Val = 5`, not
the zero value 0 that the claim requires: `UnmarshalJSON` only updates
`Present` and `Valid` on the null branch and never writes `Val`. -/
theorem C1_null_decode_counterexample :
    ¬ ((Nullable.UnmarshalJSON (fun _ => Except.error ())
        ({ Val := (5:Int), Valid := true, Present := true }) "null").1.Val = 0) := by
  decide

/-- C1, amended.  For every element type and every prior state,
decoding the structured-text null literal succeeds and leaves the
receiver with `present = true`, `valid = false`, and `Val` unchanged
from the prior state (the zero value only if it already held the zero
value). -/
theorem C1_null_decode_amended (T E : Type) (uT : String → Except E T) (n : Nullable T) :
    Nullable.UnmarshalJSON uT n "null" = ({ n with Present := true, Valid := false }, none) := by
  simp [Nullable.UnmarshalJSON]

/-- C2.  Every public operation (default construction, `NewNullable`,
`Scan` — both the generic-coercion form and the delegated
`sql.Scanner` form — and `UnmarshalJSON`) leaves the receiver in a
state with `Present = true` or `Valid = false`; equivalently
`present = false` implies `valid = false`, so (false, true) is never
produced and the reachable (`present`, `valid`) pairs are exactly
(false,false), (true,false), (true,true). -/
theorem C2_state_invariant :
    (∀ (T : Type) (z : T), stateInv (defaultNullable z))
    ∧ (∀ (T : Type) (v : T), stateInv (NewNullable v))
    ∧ (∀ (pf : Nat → String → Option Rat) (t : GoType) (n : Nullable GoValue) (v : GoValue),
        stateInv (Nullable.Scan pf t n v).1)
    ∧ (∀ (T E : Type) (z : T) (sT : T → GoValue → T × Option E) (n : Nullable T) (v : GoValue),
        stateInv (Nullable.ScanWithScanner z sT n v).1)
    ∧ (∀ (T E : Type) (uT : String → Except E T) (n : Nullable T) (d : String),
        stateInv (Nullable.UnmarshalJSON uT n d).1) := by
  refine ⟨fun T z => Or.inr rfl, fun T v => Or.inl rfl, ?_, ?_, ?_⟩
  · intro pf t n v
    cases v <;> simp only [Nullable.Scan] <;> first
      | exact Or.inl rfl
      | (split <;> exact Or.inl rfl)
  · intro T E z sT n v
    cases v <;> simp only [Nullable.ScanWithScanner] <;> first
      | exact Or.inl rfl
      | (split <;> exact Or.inl rfl)
  · intro T E uT n d
    simp only [Nullable.UnmarshalJSON]
    split
    · exact Or.inl rfl
    · split <;> exact Or.inl rfl

/-- C3, counterexample.  Scanning the signed 64-bit value
123456789012345, which does not fit in 8 bits, into a `Nullable<int8>`
does not fail with `ConversionUnsupported` as the claim requires: it
succeeds with `Valid = true` and the wrapped value 121. -/
theorem C3_int8_scan_counterexample :
    Nullable.Scan pfModel .int8 (defaultNullable (GoType.zero .int8)) (.vInt64 123456789012345)
      = ({ Val := .vInt8 121, Valid := true, Present := true }, none)
    ∧ ¬ (-128 ≤ (123456789012345:Int) ∧ (123456789012345:Int) ≤ 127)
    ∧ (121 : Int) ≠ 123456789012345 := by
  refine ⟨by decide, by decide, by decide⟩

/-- C3, amended.  Scanning a signed 64-bit integer `k` into a
`Nullable<int8>` always succeeds, with the stored value being `k`
reduced into 8-bit two's complement; when `k` fits in 8 bits the
stored value equals `k`.  Scanning a signed 64-bit integer into a
`Nullable<string>` fails with the `ConversionUnsupported` sentinel. -/
theorem C3_int8_scan_amended (pf : Nat → String → Option Rat) (n : Nullable GoValue) (k : Int)
    (h1 : -(2^63) ≤ k) (h2 : k < 2^63) :
    Nullable.Scan pf .int8 n (.vInt64 k)
      = ({ Val := .vInt8 (wrapSigned 8 k), Valid := true, Present := true }, none)
    ∧ (-128 ≤ k ∧ k ≤ 127 → wrapSigned 8 k = k)
    ∧ Nullable.Scan pf .string n (.vInt64 k)
      = ({ Val := .vString "", Valid := false, Present := true }, some .unsupportedConversion) := by
  refine ⟨?_, ?_, ?_⟩
  · simp [Nullable.Scan, convertToType, GoValue.kind?, GoType.isNumeric, goConvert,
      GoValue.intContent]
  · intro hfit
    simp only [wrapSigned]
    split_ifs <;> omega
  · simp [Nullable.Scan, convertToType, GoValue.kind?, GoType.isNumeric, GoType.zero]

/-- C3, witness. -/
theorem C3_int8_scan_witness :
    (-(2^63) ≤ (5:Int)) ∧ ((5:Int) < 2^63) ∧ (-128 ≤ (5:Int) ∧ (5:Int) ≤ 127)
    ∧ wrapSigned 8 5 = 5
    ∧ Nullable.Scan pfModel .int8 (defaultNullable (GoType.zero .int8)) (.vInt64 5)
      = ({ Val := .vInt8 (wrapSigned 8 5), Valid := true, Present := true }, none)
    ∧ Nullable.Scan pfModel .string (defaultNullable (GoType.zero .int8)) (.vInt64 5)
      = ({ Val := .vString "", Valid := false, Present := true }, some .unsupportedConversion) := by
  refine ⟨by decide, by decide, by decide,
    (C3_int8_scan_amended pfModel (defaultNullable (GoType.zero .int8)) 5
      (by decide) (by decide)).2.1 (by decide),
    (C3_int8_scan_amended pfModel (defaultNullable (GoType.zero .int8)) 5
      (by decide) (by decide)).1,
    (C3_int8_scan_amended pfModel (defaultNullable (GoType.zero .int8)) 5
      (by decide) (by decide)).2.2⟩

/-- C4, counterexample.  When the delegated `sql.Scanner` fails on a
receiver that held `Valid = true`, the receiver still holds
`Valid = true` after the call (the error is propagated), contradicting
the claim that it ends with `valid = false` for every prior state. -/
theorem C4_scanner_error_counterexample :
    (Nullable.ScanWithScanner (0:Int) (fun val _ => (val, some ()))
        ({ Val := 3, Valid := true, Present := true }) (.vInt 1)).1.Valid = true
    ∧ (Nullable.ScanWithScanner (0:Int) (fun val _ => (val, some ()))
        ({ Val := 3, Valid := true, Present := true }) (.vInt 1)).2 = some () := by
  decide

/-- C4, amended.  When `T` implements `sql.Scanner` and the delegated
scan of a non-nil input returns an error, `Scan` propagates that error
and leaves `Valid` unchanged from the prior state (so `valid = false`
exactly when it was false before the call); `Present` is set to true
and `Val` holds whatever the delegated scanner left in it. -/
theorem C4_scanner_error_amended (T E : Type) (z : T) (sT : T → GoValue → T × Option E)
    (n : Nullable T) (v : GoValue) (e : E)
    (hv : v ≠ .vNull) (he : (sT n.Val v).2 = some e) :
    Nullable.ScanWithScanner z sT n v
      = ({ n with Present := true, Val := (sT n.Val v).1 }, some e) := by
  rcases hs : sT n.Val v with ⟨val2, oe⟩
  rw [hs] at he
  simp at he
  subst he
  cases v <;> simp_all [Nullable.ScanWithScanner]

/-- C4, witness. -/
theorem C4_scanner_error_witness :
    ((GoValue.vInt 1) ≠ .vNull)
    ∧ ((fun (val : Int) (_ : GoValue) => (val, some ())) 3 (.vInt 1)).2 = some ()
    ∧ Nullable.ScanWithScanner (0:Int) (fun val _ => (val, some ()))
        ({ Val := 3, Valid := false, Present := false }) (.vInt 1)
      = ({ Val := 3, Valid := false, Present := true }, some ()) := by
  refine ⟨by decide, rfl, ?_⟩
  exact C4_scanner_error_amended Int Unit 0 (fun val _ => (val, some ()))
    ({ Val := 3, Valid := false, Present := false }) (.vInt 1) () (by decide) rfl

/-- C5, counterexample.  When byte-sequence-to-float coercion fails to
parse the text ("abc" is unparseable), the reported error is exactly
the shared `ConversionUnsupported` sentinel, not a more specific,
distinct parse-failure error as the claim requires. -/
theorem C5_parse_failure_counterexample :
    pfModel (GoType.bits .float64) "abc" = none
    ∧ convertToType pfModel .float64 (.vBytes "abc") = .error .unsupportedConversion :=
  ⟨rfl, rfl⟩

/-- C5, amended.  When byte-sequence-to-float input coercion fails
because the text is unparseable as a floating-point literal (for
either float width), the reported error is the same shared
`ConversionUnsupported` sentinel used by the other coercion failure
paths; the code has no more specific parse-failure error. -/
theorem C5_parse_failure_amended (pf : Nat → String → Option Rat) (t : GoType) (s : String)
    (ht : t = .float32 ∨ t = .float64) (hs : s ≠ "") (hp : pf t.bits s = none) :
    convertToType pf t (.vBytes s) = .error .unsupportedConversion := by
  rcases ht with h | h <;> subst h <;>
    simp_all [convertToType, GoValue.kind?, GoType.isNumeric, GoType.bits]

/-- C5, witness. -/
theorem C5_parse_failure_witness :
    (("abc" : String) ≠ "") ∧ pfModel (GoType.bits .float64) "abc" = none
    ∧ convertToType pfModel .float64 (.vBytes "abc") = .error .unsupportedConversion :=
  ⟨by decide, rfl, C5_parse_failure_amended pfModel .float64 "abc" (Or.inr rfl) (by decide) rfl⟩

/-- C6.  For every valid `Nullable<uint64>` holding `u` in the uint64
range, `Value` fails with the distinct overflow error exactly when
`u ≥ 2^63`, and for `u < 2^63` it succeeds, returning `u` as a signed
64-bit driver integer with no error. -/
theorem C6_uint64_value (u : Int) (p : Bool) (h0 : 0 ≤ u) (h1 : u < 2^64) :
    (2^63 ≤ u → Nullable.Value { Val := .vUint64 u, Valid := true, Present := p }
      = .error (.uint64TooLargeForInt64 u))
    ∧ (u < 2^63 → Nullable.Value { Val := .vUint64 u, Valid := true, Present := p }
      = .ok (.dInt64 u)) := by
  constructor
  · intro h2
    have hgt : u > maxInt64 := by unfold maxInt64; omega
    simp [Nullable.Value, convertToDriverValue, hgt]
  · intro h2
    have hgt : ¬ (u > maxInt64) := by unfold maxInt64; omega
    simp [Nullable.Value, convertToDriverValue, hgt]

/-- C6, witness. -/
theorem C6_uint64_value_witness :
    (0 ≤ (2^63 : Int)) ∧ ((2^63 : Int) < 2^64) ∧ (2^63 ≤ (2^63 : Int))
    ∧ Nullable.Value { Val := .vUint64 (2^63), Valid := true, Present := true }
      = .error (.uint64TooLargeForInt64 (2^63))
    ∧ (0 ≤ (5 : Int)) ∧ ((5 : Int) < 2^64) ∧ ((5:Int) < 2^63)
    ∧ Nullable.Value { Val := .vUint64 5, Valid := true, Present := true } = .ok (.dInt64 5) := by
  refine ⟨by decide, by decide, by decide,
    (C6_uint64_value (2^63) true (by decide) (by decide)).1 (by decide),
    by decide, by decide, by decide,
    (C6_uint64_value 5 true (by decide) (by decide)).2 (by decide)⟩

/-- C7.  Scanning a value of any Go integer type (content `k`, within
the type's range) into a `Nullable<bool>` succeeds exactly when `k` is
0 or 1, storing `false` for 0 and `true` for 1; every other integer
yields the `ConversionUnsupported` coercion failure. -/
theorem C7_bool_from_integer (pf : Nat → String → Option Rat) (n : Nullable GoValue)
    (v : GoValue) (k : Int) (hk : v.intValue? = some k) (hr : v.inRange) :
    ((k = 0 ∨ k = 1) →
      Nullable.Scan pf .bool n v
        = ({ Val := .vBool (decide (k = 1)), Valid := true, Present := true }, none))
    ∧ (k ≠ 0 → k ≠ 1 →
      Nullable.Scan pf .bool n v
        = ({ Val := .vBool false, Valid := false, Present := true }, some .unsupportedConversion)) := by
  obtain ⟨vk, hvk, hnum⟩ := intValue_kind_numeric v k hk
  have hvnull : v ≠ .vNull := by cases v <;> simp_all [GoValue.intValue?]
  have hc := convertToType_bool_numeric pf v vk hvk hnum
  have hcont := intValue_content v k hk
  have hrange := intValue_range v k hk hr
  rw [scan_of_convert pf .bool n v hvnull, hc, hcont]
  constructor
  · intro h01
    have hw : wrapSigned 64 k = k := by
      simp only [wrapSigned]; split_ifs <;> omega
    rw [hw]
    rcases h01 with h | h <;> subst h <;> norm_num
  · intro h0 h1
    have hw : wrapSigned 64 k < 0 ∨ wrapSigned 64 k > 1 := by
      simp only [wrapSigned]; split_ifs <;> omega
    have hcond : (wrapSigned 64 k < 0 || wrapSigned 64 k > 1) = true := by
      simp only [Bool.or_eq_true, decide_eq_true_eq]; exact hw
    rw [hcond]
    simp [GoType.zero]

/-- C7, witness. -/
theorem C7_bool_from_integer_witness :
    (GoValue.vInt64 1).intValue? = some 1
    ∧ (GoValue.vInt64 1).inRange
    ∧ Nullable.Scan pfModel .bool (defaultNullable (GoType.zero .bool)) (.vInt64 1)
        = ({ Val := .vBool true, Valid := true, Present := true }, none)
    ∧ (GoValue.vInt64 100).intValue? = some 100
    ∧ (GoValue.vInt64 100).inRange
    ∧ Nullable.Scan pfModel .bool (defaultNullable (GoType.zero .bool)) (.vInt64 100)
        = ({ Val := .vBool false, Valid := false, Present := true }, some .unsupportedConversion) := by
  refine ⟨rfl, by simp only [GoValue.inRange]; norm_num, ?_,
    rfl, by simp only [GoValue.inRange]; norm_num, ?_⟩
  · exact (C7_bool_from_integer pfModel (defaultNullable (GoType.zero .bool)) (.vInt64 1) 1
      rfl (by simp only [GoValue.inRange]; norm_num)).1 (Or.inr rfl)
  · exact (C7_bool_from_integer pfModel (defaultNullable (GoType.zero .bool)) (.vInt64 100) 100
      rfl (by simp only [GoValue.inRange]; norm_num)).2 (by decide) (by decide)

/-- C8.  Encode after decode is the identity on encoded texts: if a
text `s` was produced by `MarshalJSON` from some `Nullable<T>`, then
decoding `s` with `UnmarshalJSON` (into any prior state) succeeds and
re-encoding the resulting state with `MarshalJSON` reproduces `s`,
assuming `T`'s own codec round-trips. -/
theorem C8_json_roundtrip (T E : Type) (mT : T → Except E String) (uT : String → Except E T)
    (hrt : ∀ v s, mT v = .ok s → uT s = .ok v)
    (n0 n : Nullable T) (s : String) (henc : Nullable.MarshalJSON mT n0 = .ok s) :
    (Nullable.UnmarshalJSON uT n s).2 = none
    ∧ Nullable.MarshalJSON mT (Nullable.UnmarshalJSON uT n s).1 = .ok s := by
  by_cases hnull : s = "null"
  · subst hnull
    simp [Nullable.UnmarshalJSON, Nullable.MarshalJSON]
  · have hval : n0.Valid = true := by
      cases hv : n0.Valid
      · simp [Nullable.MarshalJSON, hv] at henc
        exact absurd henc.symm hnull
      · rfl
    have henc2 : mT n0.Val = .ok s := by
      simpa [Nullable.MarshalJSON, hval] using henc
    have hdec : uT s = .ok n0.Val := hrt n0.Val s henc2
    simp [Nullable.UnmarshalJSON, hnull, hdec, Nullable.MarshalJSON, henc2]

/-- C8, witness. -/
theorem C8_json_roundtrip_witness :
    (Nullable.UnmarshalJSON uB (defaultNullable false) "true").2 = none
    ∧ Nullable.MarshalJSON mB (Nullable.UnmarshalJSON uB (defaultNullable false) "true").1
      = .ok "true" := by
  refine C8_json_roundtrip Bool Unit mB uB ?_ (NewNullable true) (defaultNullable false) "true" rfl
  intro v s h
  have hs : s = (if v then "true" else "false") := (Except.ok.inj h).symm
  subst hs
  cases v <;> rfl

/-- C9.  `OrElse(d)` returns the stored value when `Valid` is true and
the provided default when `Valid` is false; being a function of the
receiver value, it never mutates it. -/
theorem C9_orElse (T : Type) (n : Nullable T) (d : T) :
    (n.Valid = true → n.OrElse d = n.Val) ∧ (n.Valid = false → n.OrElse d = d) := by
  constructor <;> intro h <;> simp [Nullable.OrElse, h]

/-- C9, witness. -/
theorem C9_orElse_witness :
    (NewNullable (5:Int)).Valid = true ∧ (NewNullable (5:Int)).OrElse 3 = 5
    ∧ (defaultNullable (0:Int)).Valid = false ∧ (defaultNullable (0:Int)).OrElse 3 = 3 :=
  ⟨rfl, (C9_orElse Int (NewNullable 5) 3).1 rfl, rfl, (C9_orElse Int (defaultNullable 0) 3).2 rfl⟩

/-- C10.  The boolean input coercion accepts floating-point inputs:
scanning a float (of either width) into a `Nullable<bool>` succeeds
whenever its truncation toward zero is 0 or 1, storing the
corresponding boolean; in particular 0.9 truncates to 0 and scans to
`false` rather than failing. -/
theorem C10_bool_from_float (pf : Nat → String → Option Rat) (n : Nullable GoValue) (q : Rat)
    (h : ratTrunc q = 0 ∨ ratTrunc q = 1) :
    Nullable.Scan pf .bool n (.vFloat64 q)
        = ({ Val := .vBool (decide (ratTrunc q = 1)), Valid := true, Present := true }, none)
    ∧ Nullable.Scan pf .bool n (.vFloat32 q)
        = ({ Val := .vBool (decide (ratTrunc q = 1)), Valid := true, Present := true }, none) := by
  have hw : wrapSigned 64 (ratTrunc q) = ratTrunc q := by
    simp only [wrapSigned]; split_ifs <;> omega
  constructor
  · rw [scan_of_convert pf .bool n _ (by simp),
      convertToType_bool_numeric pf (.vFloat64 q) .float64 rfl rfl]
    simp only [GoValue.intContent, hw]
    rcases h with h | h <;> rw [h] <;> norm_num
  · rw [scan_of_convert pf .bool n _ (by simp),
      convertToType_bool_numeric pf (.vFloat32 q) .float32 rfl rfl]
    simp only [GoValue.intContent, hw]
    rcases h with h | h <;> rw [h] <;> norm_num

/-- C10, witness: 0.9 scans into `Nullable<bool>` as `false`. -/
theorem C10_bool_from_float_witness :
    (ratTrunc (mkRat 9 10) = 0 ∨ ratTrunc (mkRat 9 10) = 1)
    ∧ Nullable.Scan pfModel .bool (defaultNullable (GoType.zero .bool)) (.vFloat64 (mkRat 9 10))
        = ({ Val := .vBool false, Valid := true, Present := true }, none) := by
  refine ⟨Or.inl (by decide), ?_⟩
  have h := (C10_bool_from_float pfModel (defaultNullable (GoType.zero .bool)) (mkRat 9 10)
    (Or.inl (by decide))).1
  simpa using h

end Gonull
